import Mathlib

/-!
Verification of the image-optimiser core: a shallow embedding of
`src/utils/imageProcessor.ts` (classes `ImageProcessor` and
`ImageQualityAnalyzer`), `src/types` and the configuration guard of
`src/App.tsx`, together with theorems settling the specification claims.

JavaScript numbers are modelled as `Nat` where the source only ever holds
nonnegative integers (dimensions, counters) and as `ℚ` where the source
computes fractional values (quality factors, luminance, variance).  Fallible
operations (promise rejection / thrown errors) are modelled with
`Except String`, the string being the `Error` message built by the source.
-/

namespace ImageOptimiser

/-- `ImageFormat` record from `src/types`. -/
structure ImageFormat where
  name : String
  extension : String
  mimeType : String
deriving DecidableEq, Repr

/-- `Breakpoint` record from `src/types`. -/
structure Breakpoint where
  name : String
  width : Nat
  description : String
deriving DecidableEq, Repr

/-- `ProcessingOptions` record from `src/types`.  `quality` is a JS number;
the UI keeps it in `[10,100]` but the record itself does not constrain it. -/
structure ProcessingOptions where
  lossless : Bool
  quality : ℚ
  formats : List ImageFormat
  breakpoints : List Breakpoint
  includeRetina : Bool
deriving DecidableEq, Repr

/-- An encoded blob as produced by `canvas.toBlob`: the media type actually
passed to the encoder, whether the lossless (PNG) path was taken, and the
quality argument passed (none on the lossless path, where it is omitted). -/
structure Blob where
  mime : String
  losslessEnc : Bool
  qualityArg : Option ℚ
deriving DecidableEq, Repr

/-- `ProcessedImage` record from `src/types` (the `size` field of the source
is the byte length of the encoded blob, produced by the external encoder, and
is not modelled). -/
structure ProcessedImage where
  name : String
  blob : Blob
  width : Nat
  height : Nat
deriving DecidableEq, Repr

/-- `ProcessingProgress` record from `src/types`. -/
structure ProgressEvent where
  current : Nat
  total : Nat
  currentTask : String
deriving DecidableEq, Repr

/-- `ImageProcessor.canvasToBlob`, applied to a canvas holding a
`w × h` bitmap.  Per the HTML canvas contract, `toBlob` invokes its callback
with `null` when the canvas bitmap has zero area (either dimension is 0); the
source maps that `null` to rejection with the message `Failed to create blob`.
Otherwise: PNG format or `options.lossless` takes the lossless `image/png`
branch with no quality argument; every other case encodes with the format's
media type at quality `options.quality / 100` (the source applies no clamp). -/
def canvasToBlob (w h : Nat) (format : ImageFormat) (options : ProcessingOptions) :
    Except String Blob :=
  if w = 0 ∨ h = 0 then
    .error "Failed to create blob"
  else if format.extension = "png" ∨ options.lossless then
    .ok { mime := "image/png", losslessEnc := true, qualityArg := none }
  else
    .ok { mime := format.mimeType, losslessEnc := false,
          qualityArg := some (options.quality / 100) }

/-- `Math.round` for a nonnegative quotient `a / b` (`b > 0`): round half
up, i.e. `⌊a/b + 1/2⌋ = ⌊(2a+b)/(2b)⌋`, here as Nat floor division. -/
def roundHalfUpDiv (a b : Nat) : Nat := (2 * a + b) / (2 * b)

/-- `ImageProcessor.createResizedImage` on a decoded source of size
`imgW × imgH`.  `finalWidth = min targetWidth imgW` (never upscale);
`finalHeight = Math.round (finalWidth * (imgH / imgW))`.  When `imgW = 0` the
JS aspect ratio is `Infinity` or `NaN`, the product is `NaN`, and assigning
`NaN` to `canvas.height` coerces it to 0; we record that height as 0 directly
(the zero-width canvas already forces the same failure).  A failure of the
blob conversion is wrapped with the size suffix, as in the source's catch. -/
def createResizedImage (imgW imgH : Nat) (targetWidth : Nat) (format : ImageFormat)
    (options : ProcessingOptions) (sizeSuffix : String) : Except String ProcessedImage :=
  let finalWidth := min targetWidth imgW
  let finalHeight := if imgW = 0 then 0 else roundHalfUpDiv (finalWidth * imgH) imgW
  match canvasToBlob finalWidth finalHeight format options with
  | .error e => .error ("Failed to create " ++ sizeSuffix ++ " image: " ++ e)
  | .ok blob =>
      .ok { name := "image-" ++ sizeSuffix ++ "." ++ format.extension,
            blob := blob, width := finalWidth, height := finalHeight }

/-- The inner `for (const format of options.formats)` loop of
`ImageProcessor.processImage` for one breakpoint: skips the pair when
`options.lossless && format.extension === 'jpg'`; otherwise produces the
standard derivative, a progress event, and (when `includeRetina`) the retina
derivative with its own progress event.  Returns the derivatives and progress
events produced by this loop, in emission order, with the final step counter;
the first error aborts the whole batch, as the source's exception does. -/
def processFormats (imgW imgH totalSteps : Nat) (options : ProcessingOptions)
    (bp : Breakpoint) :
    List ImageFormat → Nat → Except String (List ProcessedImage × List ProgressEvent × Nat)
  | [], currentStep => .ok ([], [], currentStep)
  | format :: rest, currentStep =>
    if options.lossless ∧ format.extension = "jpg" then
      processFormats imgW imgH totalSteps options bp rest currentStep
    else
      match createResizedImage imgW imgH bp.width format options (toString bp.width) with
      | .error e => .error e
      | .ok std =>
        let step1 := currentStep + 1
        let ev1 : ProgressEvent :=
          { current := step1, total := totalSteps,
            currentTask := "Processing " ++ bp.name ++ " " ++ format.name }
        if options.includeRetina then
          match createResizedImage imgW imgH (bp.width * 2) format options
              (toString bp.width ++ "@2x") with
          | .error e => .error e
          | .ok retina =>
            let step2 := step1 + 1
            let ev2 : ProgressEvent :=
              { current := step2, total := totalSteps,
                currentTask := "Processing " ++ bp.name ++ " " ++ format.name ++ " @2x" }
            match processFormats imgW imgH totalSteps options bp rest step2 with
            | .error e => .error e
            | .ok (rs, es, stepF) => .ok (std :: retina :: rs, ev1 :: ev2 :: es, stepF)
        else
          match processFormats imgW imgH totalSteps options bp rest step1 with
          | .error e => .error e
          | .ok (rs, es, stepF) => .ok (std :: rs, ev1 :: es, stepF)

/-- The outer `for (const breakpoint of options.breakpoints)` loop of
`ImageProcessor.processImage`. -/
def processBreakpoints (imgW imgH totalSteps : Nat) (options : ProcessingOptions) :
    List Breakpoint → Nat → Except String (List ProcessedImage × List ProgressEvent × Nat)
  | [], currentStep => .ok ([], [], currentStep)
  | bp :: rest, currentStep =>
    match processFormats imgW imgH totalSteps options bp options.formats currentStep with
    | .error e => .error e
    | .ok (rs, es, step1) =>
      match processBreakpoints imgW imgH totalSteps options rest step1 with
      | .error e => .error e
      | .ok (rs2, es2, stepF) => .ok (rs ++ rs2, es ++ es2, stepF)

/-- `ImageProcessor.processImage` on a source decoded to `imgW × imgH`:
computes `totalSteps = breakpoints.length * formats.length * (includeRetina ? 2 : 1)`
BEFORE the loops (so before the lossless/JPEG skip rule is applied), runs the
nested loops, and returns the derivative list together with the progress
events emitted, in order.  Any error is wrapped as in the source's catch. -/
def processImage (imgW imgH : Nat) (options : ProcessingOptions) :
    Except String (List ProcessedImage × List ProgressEvent) :=
  let totalSteps := options.breakpoints.length * options.formats.length *
    (if options.includeRetina then 2 else 1)
  match processBreakpoints imgW imgH totalSteps options options.breakpoints 0 with
  | .error e => .error ("Failed to process image: " ++ e)
  | .ok (rs, es, _) => .ok (rs, es)

/-- The configuration guard of `App.handleProcess` (src/App.tsx): with empty
`formats` or empty `breakpoints` it sets the error
`Please select formats and breakpoints` and returns without invoking the
processor, so no derivative is produced and no progress event is emitted. -/
def handleProcess (imgW imgH : Nat) (options : ProcessingOptions) :
    Except String (List ProcessedImage × List ProgressEvent) :=
  if options.formats.length = 0 ∨ options.breakpoints.length = 0 then
    .error "Please select formats and breakpoints"
  else
    processImage imgW imgH options

/-- The `ImageData` handed to the analyzer by `ctx.getImageData`: the sampled
bitmap's dimensions and its RGBA byte stream (`data.length = 4 * width * height`
for a well-formed buffer; bytes are numbers, modelled in ℚ as the analyzer
immediately mixes them into fractional luminances). -/
structure ImageData where
  width : Nat
  height : Nat
  data : List ℚ
deriving DecidableEq, Repr

/-- The grayscale pass of `ImageQualityAnalyzer.calculateLaplacianVariance`:
`gray[i/4] = 0.299*data[i] + 0.587*data[i+1] + 0.114*data[i+2]` for `i`
stepping by 4 over the byte stream.  Out-of-range reads (absent for a
well-formed buffer) default to 0. -/
def grayscale (d : ImageData) : List ℚ :=
  (List.range ((d.data.length + 3) / 4)).map (fun p =>
    0.299 * d.data.getD (4 * p) 0 + 0.587 * d.data.getD (4 * p + 1) 0 +
      0.114 * d.data.getD (4 * p + 2) 0)

/-- One application of the Laplacian kernel `[[0,-1,0],[-1,4,-1],[0,-1,0]]`
at interior coordinate `(x, y)` (`1 ≤ x ≤ w-2`, `1 ≤ y ≤ h-2`), written as
the expanded 5-term sum the 3×3 kernel loop computes. -/
def laplacianAt (g : List ℚ) (w x y : Nat) : ℚ :=
  4 * g.getD (y * w + x) 0
    - g.getD ((y - 1) * w + x) 0 - g.getD ((y + 1) * w + x) 0
    - g.getD (y * w + x - 1) 0 - g.getD (y * w + x + 1) 0

/-- The Laplacian response list of `calculateLaplacianVariance`: the nested
`for y in [1, height-2], for x in [1, width-2]` loops, y outer, pushing one
value per interior pixel. -/
def laplacianList (d : ImageData) : List ℚ :=
  let g := grayscale d
  (List.range (d.height - 2)).flatMap (fun j =>
    (List.range (d.width - 2)).map (fun i => laplacianAt g d.width (i + 1) (j + 1)))

/-- `ImageQualityAnalyzer.calculateLaplacianVariance`: population variance of
the Laplacian responses.  When the interior is empty (sampled width or height
≤ 2) the source divides 0 by 0, producing the JS value `NaN`; that undefined
result is modelled as `none`. -/
def calculateLaplacianVariance (d : ImageData) : Option ℚ :=
  let lap := laplacianList d
  if lap.length = 0 then none
  else
    let mean := lap.sum / (lap.length : ℚ)
    some (((lap.map (fun v => (v - mean) ^ 2)).sum) / (lap.length : ℚ))

/-- `ImageQualityAnalyzer.classifyBlurLevel` on the sharpness score; a `none`
score (the NaN case) fails every `>` comparison in JS and falls through to
`very-blurry`. -/
def classifyBlurLevel (sharpness : Option ℚ) : String :=
  match sharpness with
  | some s =>
    if s > 1000 then "sharp"
    else if s > 500 then "moderate"
    else if s > 100 then "blurry"
    else "very-blurry"
  | none => "very-blurry"

/-- `ImageQualityAnalyzer.calculateContrast`: luminance of every 10th pixel
(byte index stepping by 40), then `max - min`.  The luminance list is empty
only for an empty byte stream, where JS `Math.max(...[]) - Math.min(...[])`
is `-Infinity`; that unreachable case (a decoded bitmap has ≥ 1 pixel) is
modelled as 0. -/
def calculateContrast (d : ImageData) : ℚ :=
  let lums := (List.range ((d.data.length + 39) / 40)).map (fun t =>
    0.299 * d.data.getD (40 * t) 0 + 0.587 * d.data.getD (40 * t + 1) 0 +
      0.114 * d.data.getD (40 * t + 2) 0)
  match lums with
  | [] => 0
  | x :: xs => xs.foldl max x - xs.foldl min x

/-- `ImageQualityAnalyzer.calculateConfidence`: base 0.5, megapixel
adjustment on the TRUE source pixel count `srcW * srcH` (the
`imageElement` dimensions, not the sample), contrast adjustment on the
sampled buffer, then clamp to [0, 1]. -/
def calculateConfidence (srcW srcH : Nat) (d : ImageData) : ℚ :=
  let base : ℚ := 0.5
  let pixelCount := srcW * srcH
  let c1 :=
    if pixelCount > 2000000 then base + 0.3
    else if pixelCount > 500000 then base + 0.2
    else if pixelCount < 100000 then base - 0.2
    else base
  let contrast := calculateContrast d
  let c2 :=
    if contrast > 50 then c1 + 0.2
    else if contrast < 20 then c1 - 0.1
    else c1
  max 0 (min 1 c2)

/-- `ImageQualityAnalyzer.analyzeImage` after sampling and `getImageData`:
the metrics record built from the three helpers. -/
structure QualityMetrics where
  sharpness : Option ℚ
  blurLevel : String
  confidence : ℚ
deriving DecidableEq, Repr

/-- The analyzer's result on a source of true size `srcW × srcH` whose
sampled bitmap is `d`. -/
def analyzeImage (srcW srcH : Nat) (d : ImageData) : QualityMetrics :=
  let sharpness := calculateLaplacianVariance d
  { sharpness := sharpness
    blurLevel := classifyBlurLevel sharpness
    confidence := calculateConfidence srcW srcH d }

/-- Modelled from the spec (§4.4 step 6): the confidence formula written as a
single clamped sum `clamp01 (0.5 + megapixelAdj + contrastAdj)`, used as the
reference against which the source's sequential updates are compared. -/
def confidenceSpec (srcW srcH : Nat) (d : ImageData) : ℚ :=
  let pixelCount := srcW * srcH
  let megapixelAdj : ℚ :=
    if pixelCount > 2000000 then 0.3
    else if pixelCount > 500000 then 0.2
    else if pixelCount < 100000 then -0.2
    else 0
  let contrast := calculateContrast d
  let contrastAdj : ℚ :=
    if contrast > 50 then 0.2
    else if contrast < 20 then -0.1
    else 0
  max 0 (min 1 (0.5 + megapixelAdj + contrastAdj))

/-- The `IMAGE_FORMATS` constants from `src/constants`. -/
def fmtAVIF : ImageFormat := { name := "AVIF", extension := "avif", mimeType := "image/avif" }

/-- `WebP` entry of `IMAGE_FORMATS`. -/
def fmtWebP : ImageFormat := { name := "WebP", extension := "webp", mimeType := "image/webp" }

/-- `JPEG` entry of `IMAGE_FORMATS`. -/
def fmtJPEG : ImageFormat := { name := "JPEG", extension := "jpg", mimeType := "image/jpeg" }

/-- `PNG` entry of `IMAGE_FORMATS`. -/
def fmtPNG : ImageFormat := { name := "PNG", extension := "png", mimeType := "image/png" }

instance {a b : Type} [DecidableEq a] [DecidableEq b] : DecidableEq (Except a b)
  | .error x, .error y =>
    if h : x = y then .isTrue (by rw [h]) else .isFalse (fun hh => h (Except.error.inj hh))
  | .error _, .ok _ => .isFalse (fun hh => Except.noConfusion hh)
  | .ok _, .error _ => .isFalse (fun hh => Except.noConfusion hh)
  | .ok x, .ok y =>
    if h : x = y then .isTrue (by rw [h]) else .isFalse (fun hh => h (Except.ok.inj hh))

/-- `s` ends with `t` (the semantics of JS `String.endsWith`), expressed on
the character lists. -/
def strEndsWith (s t : String) : Bool := t.data.reverse.isPrefixOf s.data.reverse

theorem isPrefixOf_self_append (l m : List Char) : l.isPrefixOf (l ++ m) = true := by
  induction l with
  | nil => simp [List.isPrefixOf]
  | cons a as ih => simp [List.isPrefixOf, ih]

theorem strEndsWith_own_ext (s ext : String) :
    strEndsWith ("image-" ++ s ++ "." ++ ext) ("." ++ ext) = true := by
  simp only [strEndsWith, String.data_append, List.reverse_append]
  rw [← List.append_assoc]
  exact isPrefixOf_self_append _ _

theorem strEndsWith_not_jpg (s ext : String)
    (h : ext = "avif" ∨ ext = "webp" ∨ ext = "png") :
    strEndsWith ("image-" ++ s ++ "." ++ ext) ".jpg" = false := by
  rcases h with h | h | h <;> subst h <;>
    simp [strEndsWith, String.data_append, List.reverse_append, List.isPrefixOf]

theorem canvasToBlob_ok_lossless {w h : Nat} {fmt : ImageFormat}
    {opts : ProcessingOptions} {b : Blob} (hl : opts.lossless = true)
    (hok : canvasToBlob w h fmt opts = .ok b) :
    b = { mime := "image/png", losslessEnc := true, qualityArg := none } := by
  unfold canvasToBlob at hok
  split at hok
  · exact absurd hok (by simp)
  split at hok
  · exact (Except.ok.inj hok).symm
  · rename_i hcond
    exact absurd (Or.inr hl) hcond

theorem canvasToBlob_ok_lossy {w h : Nat} {fmt : ImageFormat}
    {opts : ProcessingOptions} {b : Blob} (hl : opts.lossless = false)
    (hp : fmt.extension ≠ "png") (hok : canvasToBlob w h fmt opts = .ok b) :
    b = { mime := fmt.mimeType, losslessEnc := false,
          qualityArg := some (opts.quality / 100) } := by
  unfold canvasToBlob at hok
  split at hok
  · exact absurd hok (by simp)
  split at hok
  · rename_i hcond
    rcases hcond with hc | hc
    · exact absurd hc hp
    · rw [hl] at hc; exact absurd hc (by simp)
  · exact (Except.ok.inj hok).symm

theorem createResizedImage_ok_inv {imgW imgH tw : Nat} {fmt : ImageFormat}
    {opts : ProcessingOptions} {s : String} {d : ProcessedImage}
    (hok : createResizedImage imgW imgH tw fmt opts s = .ok d) :
    d.name = "image-" ++ s ++ "." ++ fmt.extension ∧
      canvasToBlob d.width d.height fmt opts = .ok d.blob := by
  unfold createResizedImage at hok
  simp only at hok
  cases hcb : canvasToBlob (min tw imgW)
      (if imgW = 0 then 0 else roundHalfUpDiv (min tw imgW * imgH) imgW) fmt opts with
  | error e => rw [hcb] at hok; exact absurd hok (by simp)
  | ok blob =>
    rw [hcb] at hok
    simp only [Except.ok.injEq] at hok
    subst hok
    exact ⟨rfl, hcb⟩



theorem processFormats_ok_length {imgW imgH T : Nat} {opts : ProcessingOptions}
    {bp : Breakpoint} (fmts : List ImageFormat) :
    ∀ (step : Nat) {rs : List ProcessedImage} {es : List ProgressEvent} {stepF : Nat},
      processFormats imgW imgH T opts bp fmts step = .ok (rs, es, stepF) →
      rs.length =
        (fmts.filter (fun f => !(opts.lossless && f.extension == "jpg"))).length *
          (if opts.includeRetina then 2 else 1) := by
  induction fmts with
  | nil =>
    intro step rs es stepF hok
    simp [processFormats] at hok
    simp [hok.1]
  | cons f rest ih =>
    intro step rs es stepF hok
    unfold processFormats at hok
    split at hok
    · rename_i hskip
      have hlen := ih step hok
      have : (f.extension == "jpg") = true := by simp [hskip.2]
      simp [List.filter, hskip.1, this, hlen]
    · rename_i hskip
      have hkeep : (opts.lossless && f.extension == "jpg") = false := by
        rcases Bool.eq_false_or_eq_true opts.lossless with hl | hl
        · have hne : f.extension ≠ "jpg" := fun hc => hskip ⟨hl, hc⟩
          simp [hl, hne]
        · simp [hl]
      have hkeepT : (!(opts.lossless && f.extension == "jpg")) = true := by
        rw [hkeep]; rfl
      cases hcr : createResizedImage imgW imgH bp.width f opts (toString bp.width) with
      | error e => rw [hcr] at hok; exact absurd hok (by simp)
      | ok std =>
        rw [hcr] at hok
        simp only at hok
        rcases Bool.eq_false_or_eq_true opts.includeRetina with hr | hr
        · rw [if_pos (by simp [hr])] at hok
          cases hcr2 : createResizedImage imgW imgH (bp.width * 2) f opts
              (toString bp.width ++ "@2x") with
          | error e => rw [hcr2] at hok; exact absurd hok (by simp)
          | ok retina =>
            rw [hcr2] at hok
            cases hrec : processFormats imgW imgH T opts bp rest (step + 1 + 1) with
            | error e => rw [hrec] at hok; exact absurd hok (by simp)
            | ok triple =>
              obtain ⟨rs2, es2, stepF2⟩ := triple
              rw [hrec] at hok
              simp only [Except.ok.injEq, Prod.mk.injEq] at hok
              obtain ⟨hrs, hes, hstep⟩ := hok
              have hlen := ih (step + 1 + 1) hrec
              subst hrs
              rw [List.filter_cons, if_pos hkeepT]
              simp [hr] at hlen ⊢
              omega
        · rw [if_neg (by simp [hr])] at hok
          cases hrec : processFormats imgW imgH T opts bp rest (step + 1) with
          | error e => rw [hrec] at hok; exact absurd hok (by simp)
          | ok triple =>
            obtain ⟨rs2, es2, stepF2⟩ := triple
            rw [hrec] at hok
            simp only [Except.ok.injEq, Prod.mk.injEq] at hok
            obtain ⟨hrs, hes, hstep⟩ := hok
            have hlen := ih (step + 1) hrec
            subst hrs
            rw [List.filter_cons, if_pos hkeepT]
            simp [hr] at hlen ⊢
            omega



theorem processFormats_ok_mem {imgW imgH T : Nat} {opts : ProcessingOptions}
    {bp : Breakpoint} (fmts : List ImageFormat) :
    ∀ (step : Nat) {rs : List ProcessedImage} {es : List ProgressEvent} {stepF : Nat},
      processFormats imgW imgH T opts bp fmts step = .ok (rs, es, stepF) →
      ∀ d ∈ rs, ∃ f tw s, f ∈ fmts ∧ (opts.lossless = true → f.extension ≠ "jpg") ∧
        createResizedImage imgW imgH tw f opts s = .ok d := by
  induction fmts with
  | nil =>
    intro step rs es stepF hok
    simp [processFormats] at hok
    simp [hok.1]
  | cons f rest ih =>
    intro step rs es stepF hok
    unfold processFormats at hok
    split at hok
    · rename_i hskip
      intro d hd
      obtain ⟨g, tw, s, hg, hgi, hcr⟩ := ih step hok d hd
      exact ⟨g, tw, s, List.mem_cons_of_mem f hg, hgi, hcr⟩
    · rename_i hskip
      have hnotjpg : opts.lossless = true → f.extension ≠ "jpg" :=
        fun hl hc => hskip ⟨hl, hc⟩
      cases hcr : createResizedImage imgW imgH bp.width f opts (toString bp.width) with
      | error e => rw [hcr] at hok; exact absurd hok (by simp)
      | ok std =>
        rw [hcr] at hok
        simp only at hok
        rcases Bool.eq_false_or_eq_true opts.includeRetina with hr | hr
        · rw [if_pos (by simp [hr])] at hok
          cases hcr2 : createResizedImage imgW imgH (bp.width * 2) f opts
              (toString bp.width ++ "@2x") with
          | error e => rw [hcr2] at hok; exact absurd hok (by simp)
          | ok retina =>
            rw [hcr2] at hok
            cases hrec : processFormats imgW imgH T opts bp rest (step + 1 + 1) with
            | error e => rw [hrec] at hok; exact absurd hok (by simp)
            | ok triple =>
              obtain ⟨rs2, es2, stepF2⟩ := triple
              rw [hrec] at hok
              simp only [Except.ok.injEq, Prod.mk.injEq] at hok
              obtain ⟨hrs, hes, hstep⟩ := hok
              subst hrs
              intro d hd
              rcases List.mem_cons.mp hd with rfl | hd2
              · exact ⟨f, bp.width, toString bp.width, List.mem_cons_self f rest,
                  hnotjpg, hcr⟩
              rcases List.mem_cons.mp hd2 with rfl | hd3
              · exact ⟨f, bp.width * 2, toString bp.width ++ "@2x",
                  List.mem_cons_self f rest, hnotjpg, hcr2⟩
              obtain ⟨g, tw, s, hg, hgi, hcr3⟩ := ih (step + 1 + 1) hrec d hd3
              exact ⟨g, tw, s, List.mem_cons_of_mem f hg, hgi, hcr3⟩
        · rw [if_neg (by simp [hr])] at hok
          cases hrec : processFormats imgW imgH T opts bp rest (step + 1) with
          | error e => rw [hrec] at hok; exact absurd hok (by simp)
          | ok triple =>
            obtain ⟨rs2, es2, stepF2⟩ := triple
            rw [hrec] at hok
            simp only [Except.ok.injEq, Prod.mk.injEq] at hok
            obtain ⟨hrs, hes, hstep⟩ := hok
            subst hrs
            intro d hd
            rcases List.mem_cons.mp hd with rfl | hd2
            · exact ⟨f, bp.width, toString bp.width, List.mem_cons_self f rest,
                hnotjpg, hcr⟩
            obtain ⟨g, tw, s, hg, hgi, hcr3⟩ := ih (step + 1) hrec d hd2
            exact ⟨g, tw, s, List.mem_cons_of_mem f hg, hgi, hcr3⟩

theorem processBreakpoints_ok_length {imgW imgH T : Nat} {opts : ProcessingOptions}
    (bps : List Breakpoint) :
    ∀ (step : Nat) {rs : List ProcessedImage} {es : List ProgressEvent} {stepF : Nat},
      processBreakpoints imgW imgH T opts bps step = .ok (rs, es, stepF) →
      rs.length = bps.length *
        ((opts.formats.filter (fun f => !(opts.lossless && f.extension == "jpg"))).length *
          (if opts.includeRetina then 2 else 1)) := by
  induction bps with
  | nil =>
    intro step rs es stepF hok
    simp [processBreakpoints] at hok
    simp [hok.1]
  | cons bp rest ih =>
    intro step rs es stepF hok
    unfold processBreakpoints at hok
    cases hf : processFormats imgW imgH T opts bp opts.formats step with
    | error e => rw [hf] at hok; exact absurd hok (by simp)
    | ok triple =>
      obtain ⟨rs1, es1, step1⟩ := triple
      rw [hf] at hok
      simp only at hok
      cases hrec : processBreakpoints imgW imgH T opts rest step1 with
      | error e => rw [hrec] at hok; exact absurd hok (by simp)
      | ok triple2 =>
        obtain ⟨rs2, es2, stepF2⟩ := triple2
        rw [hrec] at hok
        simp only [Except.ok.injEq, Prod.mk.injEq] at hok
        obtain ⟨hrs, hes, hstep⟩ := hok
        subst hrs
        have h1 := processFormats_ok_length opts.formats step hf
        have h2 := ih step1 hrec
        rw [List.length_append, h1, h2, List.length_cons]
        ring

theorem processBreakpoints_ok_mem {imgW imgH T : Nat} {opts : ProcessingOptions}
    (bps : List Breakpoint) :
    ∀ (step : Nat) {rs : List ProcessedImage} {es : List ProgressEvent} {stepF : Nat},
      processBreakpoints imgW imgH T opts bps step = .ok (rs, es, stepF) →
      ∀ d ∈ rs, ∃ f tw s, f ∈ opts.formats ∧
        (opts.lossless = true → f.extension ≠ "jpg") ∧
        createResizedImage imgW imgH tw f opts s = .ok d := by
  induction bps with
  | nil =>
    intro step rs es stepF hok
    simp [processBreakpoints] at hok
    simp [hok.1]
  | cons bp rest ih =>
    intro step rs es stepF hok
    unfold processBreakpoints at hok
    cases hf : processFormats imgW imgH T opts bp opts.formats step with
    | error e => rw [hf] at hok; exact absurd hok (by simp)
    | ok triple =>
      obtain ⟨rs1, es1, step1⟩ := triple
      rw [hf] at hok
      simp only at hok
      cases hrec : processBreakpoints imgW imgH T opts rest step1 with
      | error e => rw [hrec] at hok; exact absurd hok (by simp)
      | ok triple2 =>
        obtain ⟨rs2, es2, stepF2⟩ := triple2
        rw [hrec] at hok
        simp only [Except.ok.injEq, Prod.mk.injEq] at hok
        obtain ⟨hrs, hes, hstep⟩ := hok
        subst hrs
        intro d hd
        rcases List.mem_append.mp hd with hd | hd
        · exact processFormats_ok_mem opts.formats step hf d hd
        · exact ih step1 hrec d hd

theorem processImage_ok_length {imgW imgH : Nat} {opts : ProcessingOptions}
    {rs : List ProcessedImage} {es : List ProgressEvent}
    (hok : processImage imgW imgH opts = .ok (rs, es)) :
    rs.length = opts.breakpoints.length *
      ((opts.formats.filter (fun f => !(opts.lossless && f.extension == "jpg"))).length *
        (if opts.includeRetina then 2 else 1)) := by
  unfold processImage at hok
  simp only at hok
  cases hb : processBreakpoints imgW imgH
      (opts.breakpoints.length * opts.formats.length *
        (if opts.includeRetina then 2 else 1)) opts opts.breakpoints 0 with
  | error e => rw [hb] at hok; exact absurd hok (by simp)
  | ok triple =>
    obtain ⟨rs1, es1, stepF⟩ := triple
    rw [hb] at hok
    simp only [Except.ok.injEq, Prod.mk.injEq] at hok
    obtain ⟨hrs, hes⟩ := hok
    subst hrs
    exact processBreakpoints_ok_length opts.breakpoints 0 hb

theorem processImage_ok_mem {imgW imgH : Nat} {opts : ProcessingOptions}
    {rs : List ProcessedImage} {es : List ProgressEvent}
    (hok : processImage imgW imgH opts = .ok (rs, es)) :
    ∀ d ∈ rs, ∃ f tw s, f ∈ opts.formats ∧
      (opts.lossless = true → f.extension ≠ "jpg") ∧
      createResizedImage imgW imgH tw f opts s = .ok d := by
  unfold processImage at hok
  simp only at hok
  cases hb : processBreakpoints imgW imgH
      (opts.breakpoints.length * opts.formats.length *
        (if opts.includeRetina then 2 else 1)) opts opts.breakpoints 0 with
  | error e => rw [hb] at hok; exact absurd hok (by simp)
  | ok triple =>
    obtain ⟨rs1, es1, stepF⟩ := triple
    rw [hb] at hok
    simp only [Except.ok.injEq, Prod.mk.injEq] at hok
    obtain ⟨hrs, hes⟩ := hok
    subst hrs
    exact processBreakpoints_ok_mem opts.breakpoints 0 hb


theorem sum_map_const_range (n c : Nat) :
    ((List.range n).map (fun _ => c)).sum = n * c := by
  induction n with
  | zero => simp
  | succ k ih => simp [List.range_succ, ih, Nat.succ_mul]

theorem laplacianList_length (d : ImageData) :
    (laplacianList d).length = (d.height - 2) * (d.width - 2) := by
  unfold laplacianList
  simp only [List.length_flatMap, Function.comp_def, List.length_map, List.length_range]
  exact sum_map_const_range _ _

theorem length_filter_not {α : Type} (l : List α) (p : α → Bool) :
    (l.filter (fun a => !(p a))).length = l.length - l.countP p := by
  induction l with
  | nil => simp
  | cons a as ih =>
    by_cases h : p a = true
    · simp [List.filter_cons, List.countP_cons, h, ih]
    · simp only [Bool.not_eq_true] at h
      simp [List.filter_cons, List.countP_cons, h, ih]
      have := as.countP_le_length (p := p)
      omega

/-- Defaults mirroring `DEFAULT_BREAKPOINTS` entries used in the concrete
scenarios. -/
def bp1080 : Breakpoint := { name := "1080p", width := 1920, description := "Full HD displays" }

/-- The `Mobile` breakpoint of `DEFAULT_BREAKPOINTS`. -/
def bpMobile : Breakpoint := { name := "Mobile", width := 768, description := "Mobile devices" }

/-- Options acting as the failing input for the progress-total claim:
lossless with both WebP and JPEG requested, one breakpoint, no retina. -/
def optsSkipOne : ProcessingOptions :=
  { lossless := true, quality := 85, formats := [fmtWebP, fmtJPEG],
    breakpoints := [bp1080], includeRetina := false }

/-- C1: the claim states that with lossless=true and JPEG among the formats
the total in every progress event equals the number of derivatives actually
produced and the final event reaches current == total.  The code computes
`totalSteps` BEFORE the skip rule, so on the failing input it produces one
derivative but reports total = 2, and the one (hence final) progress event
has current = 1 ≠ total = 2.  This theorem evaluates the code at that
input, exhibiting the divergence the spec itself flags in §9. -/
theorem claim1_total_before_skip_eval :
    (processImage 100 100 optsSkipOne).map
        (fun p => (p.1.length, p.2.map (fun e => (e.current, e.total)))) =
      .ok (1, [(1, 2)]) ∧ (1 : Nat) ≠ 2 := by decide

/-- Options for the derivative-count counterexample: lossless, WebP + JPEG,
one breakpoint, retina on. -/
def optsSkipRetina : ProcessingOptions :=
  { lossless := true, quality := 85, formats := [fmtWebP, fmtJPEG],
    breakpoints := [bp1080], includeRetina := true }

/-- C2 counterexample: the claimed formula
`B × F × (retina ? 2 : 1) − (lossless ? B × [JPEG ∈ formats] : 0)` predicts 3
derivatives for one breakpoint, formats [WebP, JPEG], retina on and lossless
on, but the code skips the whole JPEG pair (standard AND retina) and returns
2 derivatives. -/
theorem claim2_count_formula_counterexample :
    (processImage 100 100 optsSkipRetina).map (fun p => p.1.length) = .ok 2 ∧
    optsSkipRetina.breakpoints.length * optsSkipRetina.formats.length *
        (if optsSkipRetina.includeRetina then 2 else 1) -
      (if optsSkipRetina.lossless then
          optsSkipRetina.breakpoints.length *
            (if "jpg" ∈ optsSkipRetina.formats.map (fun f => f.extension) then 1 else 0)
        else 0) = 3 ∧ (2 : Nat) ≠ 3 := by decide

/-- C2 (amended): whenever `processImage` succeeds and the formats are
unique in their JPEG membership (the data model keys formats by extension),
the number of derivatives equals
`B × F × (retina ? 2 : 1) − (lossless ? B × [JPEG ∈ formats] : 0) × (retina ? 2 : 1)`:
the subtracted skip term also carries the retina factor, because the skip
rule drops the standard and the retina derivative of a skipped pair. -/
theorem claim2_output_count {imgW imgH : Nat} {opts : ProcessingOptions}
    {rs : List ProcessedImage} {es : List ProgressEvent}
    (hok : processImage imgW imgH opts = .ok (rs, es))
    (hunique : opts.formats.countP (fun f => f.extension == "jpg") ≤ 1) :
    rs.length =
      opts.breakpoints.length * opts.formats.length *
          (if opts.includeRetina then 2 else 1) -
        (if opts.lossless then
            opts.breakpoints.length *
              (if "jpg" ∈ opts.formats.map (fun f => f.extension) then 1 else 0)
          else 0) * (if opts.includeRetina then 2 else 1) := by
  have hlen := processImage_ok_length hok
  set B := opts.breakpoints.length
  set F := opts.formats.length
  set r := (if opts.includeRetina = true then 2 else 1) with hr
  rcases Bool.eq_false_or_eq_true opts.lossless with hl | hl
  · set c := opts.formats.countP (fun f => f.extension == "jpg") with hc
    have hfl : (opts.formats.filter
        (fun f => !(opts.lossless && f.extension == "jpg"))).length = F - c := by
      have : (fun f : ImageFormat => !(opts.lossless && f.extension == "jpg")) =
          (fun f : ImageFormat => !(f.extension == "jpg")) := by
        funext f; rw [hl]; simp
      rw [this, length_filter_not]
    have hmem : ("jpg" ∈ opts.formats.map (fun f => f.extension)) ↔ 0 < c := by
      rw [hc, List.countP_pos_iff]
      constructor
      · intro h
        obtain ⟨f, hf, he⟩ := List.mem_map.mp h
        exact ⟨f, hf, by simp [he]⟩
      · rintro ⟨f, hf, he⟩
        exact List.mem_map.mpr ⟨f, hf, by simpa using he⟩
    rw [hlen, hfl, hl, if_pos rfl]
    by_cases hm : "jpg" ∈ opts.formats.map (fun f => f.extension)
    · have hc1 : c = 1 := le_antisymm hunique (hmem.mp hm)
      rw [if_pos hm, hc1]
      rw [Nat.mul_sub_right_distrib, Nat.mul_sub_left_distrib]
      ring_nf
    · have hc0 : c = 0 := by
        by_contra hne
        exact hm (hmem.mpr (Nat.pos_of_ne_zero hne))
      rw [if_neg hm, hc0]
      simp [Nat.mul_assoc]
  · have hfl : (opts.formats.filter
        (fun f => !(opts.lossless && f.extension == "jpg"))).length = F := by
      have : (fun f : ImageFormat => !(opts.lossless && f.extension == "jpg")) =
          (fun f : ImageFormat => true) := by
        funext f; rw [hl]; simp
      rw [this, List.filter_true]
    rw [hlen, hfl, hl]
    simp [Nat.mul_assoc]

/-- C2 witness: the amended count formula, instantiated on the concrete
lossless retina scenario (2 derivatives). -/
theorem claim2_output_count_witness :
    ∃ rs es, processImage 100 100 optsSkipRetina = .ok (rs, es) ∧
      rs.length =
        optsSkipRetina.breakpoints.length * optsSkipRetina.formats.length *
            (if optsSkipRetina.includeRetina then 2 else 1) -
          (if optsSkipRetina.lossless then
              optsSkipRetina.breakpoints.length *
                (if "jpg" ∈ optsSkipRetina.formats.map (fun f => f.extension) then 1 else 0)
            else 0) * (if optsSkipRetina.includeRetina then 2 else 1) :=
  ⟨_, _, rfl, @claim2_output_count 100 100 optsSkipRetina _ _ rfl (by decide)⟩

/-- Plain lossy single-format options used for the resizer claims. -/
def optsLossyWebP : ProcessingOptions :=
  { lossless := false, quality := 85, formats := [fmtWebP], breakpoints := [bp1080],
    includeRetina := false }

/-- C3 counterexample: for source 1000×1, target width 100 (all positive) the
computed height `Math.round(100 · 1/1000) = Math.round(0.1)` is 0, not ≥ 1:
no derivative with height ≥ 1 exists — the zero-area canvas makes the blob
conversion fail, so the call returns an error instead of a derivative. -/
theorem claim3_height_zero_counterexample :
    createResizedImage 1000 1 100 fmtWebP optsLossyWebP "100" =
      .error "Failed to create 100 image: Failed to create blob" ∧
    roundHalfUpDiv (min 100 1000 * 1) 1000 = 0 := by decide

/-- C3 (amended): for every source with `w0 > 0` and target `tw > 0`, the
resized derivative has width `min tw w0 ≥ 1` and height
`round-half-up (width · h0 / w0)`; the height is ≥ 1 (and the derivative
exists) provided `2 · min tw w0 · h0 ≥ w0` — without that bound the rounded
height is 0 and the operation fails, as the counterexample shows. -/
theorem claim3_resize_dims (imgW imgH tw : Nat) (fmt : ImageFormat)
    (opts : ProcessingOptions) (s : String) (hw : 0 < imgW) (htw : 0 < tw)
    (hh : imgW ≤ 2 * (min tw imgW * imgH)) :
    ∃ d, createResizedImage imgW imgH tw fmt opts s = .ok d ∧
      d.width = min tw imgW ∧ 1 ≤ d.width ∧
      d.height = roundHalfUpDiv (min tw imgW * imgH) imgW ∧ 1 ≤ d.height := by
  have hwpos : 0 < min tw imgW := lt_min htw hw
  have hhpos : 1 ≤ roundHalfUpDiv (min tw imgW * imgH) imgW := by
    unfold roundHalfUpDiv
    rw [Nat.le_div_iff_mul_le (by omega)]
    omega
  unfold createResizedImage
  dsimp only
  rw [if_neg (Nat.pos_iff_ne_zero.mp hw)]
  have hblob : ∃ b, canvasToBlob (min tw imgW) (roundHalfUpDiv (min tw imgW * imgH) imgW)
      fmt opts = .ok b := by
    unfold canvasToBlob
    rw [if_neg (by omega)]
    split
    · exact ⟨_, rfl⟩
    · exact ⟨_, rfl⟩
  obtain ⟨b, hb⟩ := hblob
  rw [hb]
  exact ⟨_, rfl, rfl, hwpos, rfl, hhpos⟩

/-- C3 witness: source 1000×500, target width 100 — widths and height bound
hold, so the derivative exists with width 100 and height 50. -/
theorem claim3_resize_dims_witness :
    ∃ d, createResizedImage 1000 500 100 fmtWebP optsLossyWebP "100" = .ok d ∧
      d.width = min 100 1000 ∧ 1 ≤ d.width ∧
      d.height = roundHalfUpDiv (min 100 1000 * 500) 1000 ∧ 1 ≤ d.height :=
  claim3_resize_dims 1000 500 100 fmtWebP optsLossyWebP "100"
    (by decide) (by decide) (by decide)

/-- C4: (a) with lossless=true and formats drawn from the closed extension
set {avif, webp, jpg, png}, no derivative name ends in ".jpg" and every
derivative's blob was produced by the lossless branch with no quality
argument; (b) with lossless=false and a non-PNG format, and the data model's
quality range 10 ≤ quality ≤ 100, the blob is lossy at
`quality / 100`, which equals its clamp to [0.1, 1.0]. -/
theorem claim4_encode_rules :
    (∀ (opts : ProcessingOptions) (imgW imgH : Nat) (rs : List ProcessedImage)
        (es : List ProgressEvent),
        opts.lossless = true →
        (∀ f ∈ opts.formats, f.extension ∈ (["avif", "webp", "jpg", "png"] : List String)) →
        processImage imgW imgH opts = .ok (rs, es) →
        ∀ d ∈ rs, strEndsWith d.name ".jpg" = false ∧ d.blob.losslessEnc = true ∧
          d.blob.qualityArg = none) ∧
    (∀ (opts : ProcessingOptions) (fmt : ImageFormat) (w h : Nat) (b : Blob),
        opts.lossless = false → fmt.extension ≠ "png" →
        10 ≤ opts.quality → opts.quality ≤ 100 →
        canvasToBlob w h fmt opts = .ok b →
        b.losslessEnc = false ∧
          b.qualityArg = some (opts.quality / 100) ∧
          opts.quality / 100 = max 0.1 (min 1 (opts.quality / 100))) := by
  constructor
  · intro opts imgW imgH rs es hl hext hok d hd
    obtain ⟨f, tw, s, hf, hnj, hcr⟩ := processImage_ok_mem hok d hd
    obtain ⟨hname, hcb⟩ := createResizedImage_ok_inv hcr
    have hb := canvasToBlob_ok_lossless hl hcb
    have hne : f.extension ≠ "jpg" := hnj hl
    have hcases : f.extension = "avif" ∨ f.extension = "webp" ∨ f.extension = "png" := by
      have := hext f hf
      simp only [List.mem_cons, List.not_mem_nil, or_false] at this
      rcases this with h | h | h | h
      · exact Or.inl h
      · exact Or.inr (Or.inl h)
      · exact absurd h hne
      · exact Or.inr (Or.inr h)
    refine ⟨?_, by rw [hb], by rw [hb]⟩
    rw [hname]
    exact strEndsWith_not_jpg s f.extension hcases
  · intro opts fmt w h b hl hp hq1 hq2 hok
    have hb := canvasToBlob_ok_lossy hl hp hok
    have hle : opts.quality / 100 ≤ 1 := by
      rw [div_le_one (by norm_num)]
      linarith
    have hge : (0.1 : ℚ) ≤ opts.quality / 100 := by
      rw [le_div_iff₀ (by norm_num)]
      linarith
    refine ⟨by rw [hb], by rw [hb], ?_⟩
    rw [min_eq_right hle, max_eq_right hge]

/-- Lossless WebP-only options for the C4 witness scenario. -/
def optsLosslessWebP : ProcessingOptions :=
  { lossless := true, quality := 85, formats := [fmtWebP], breakpoints := [bp1080],
    includeRetina := false }

/-- The single derivative `processImage 100 100 optsLosslessWebP` produces. -/
def derivLosslessWebP : ProcessedImage :=
  { name := "image-1920.webp",
    blob := { mime := "image/png", losslessEnc := true, qualityArg := none },
    width := 100, height := 100 }

/-- The single progress event of the same run. -/
def eventLosslessWebP : ProgressEvent :=
  { current := 1, total := 1, currentTask := "Processing 1080p WebP" }

/-- The lossy WebP blob `canvasToBlob 100 100 fmtWebP optsLossyWebP` yields. -/
def blobLossyWebP : Blob :=
  { mime := "image/webp", losslessEnc := false, qualityArg := some (85 / 100) }

/-- C4 witness: both encode rules instantiated on concrete runs. -/
theorem claim4_encode_rules_witness :
    (strEndsWith derivLosslessWebP.name ".jpg" = false ∧
      derivLosslessWebP.blob.losslessEnc = true ∧
      derivLosslessWebP.blob.qualityArg = none) ∧
    (blobLossyWebP.losslessEnc = false ∧
      blobLossyWebP.qualityArg = some (optsLossyWebP.quality / 100) ∧
      optsLossyWebP.quality / 100 = max 0.1 (min 1 (optsLossyWebP.quality / 100))) :=
  ⟨claim4_encode_rules.1 optsLosslessWebP 100 100 [derivLosslessWebP] [eventLosslessWebP]
      rfl (by decide) rfl derivLosslessWebP (by simp),
    claim4_encode_rules.2 optsLossyWebP fmtWebP 100 100 blobLossyWebP rfl (by decide)
      (by norm_num [optsLossyWebP]) (by norm_num [optsLossyWebP]) rfl⟩

/-- The §8 scenario options: breakpoints [1920, 768], formats [WebP, JPEG],
retina on, lossy. -/
def optsScenario : ProcessingOptions :=
  { lossless := false, quality := 85, formats := [fmtWebP, fmtJPEG],
    breakpoints := [bp1080, bpMobile], includeRetina := true }

/-- C5 counterexample: the claimed emission order (all standard derivatives
of a breakpoint before its retina ones) is not what the code produces — the
retina derivative follows its standard derivative inside the format loop, so
the second name is `image-1920@2x.webp`, not `image-1920.jpg`. -/
theorem claim5_order_counterexample :
    (processImage 3840 2160 optsScenario).map (fun p => p.1.map (fun d => d.name)) ≠
      .ok ["image-1920.webp", "image-1920.jpg", "image-1920@2x.webp", "image-1920@2x.jpg",
           "image-768.webp", "image-768.jpg", "image-768@2x.webp", "image-768@2x.jpg"] := by
  decide

/-- C5 (amended): on source 3840×2160 with the §8 scenario options the code
emits exactly 8 derivatives in nested order breakpoints × formats ×
(standard then retina): for each breakpoint and format, the retina name
immediately follows its standard name. -/
theorem claim5_scenario_order :
    (processImage 3840 2160 optsScenario).map (fun p => p.1.map (fun d => d.name)) =
      .ok ["image-1920.webp", "image-1920@2x.webp", "image-1920.jpg", "image-1920@2x.jpg",
           "image-768.webp", "image-768@2x.webp", "image-768.jpg", "image-768@2x.jpg"] := by
  decide

/-- C6: with empty formats or empty breakpoints the processing pathway
(`App.handleProcess`) stops with the configuration error before invoking the
processor, so no derivative is produced and no progress event is emitted. -/
theorem claim6_config_guard (imgW imgH : Nat) (opts : ProcessingOptions)
    (h : opts.formats = [] ∨ opts.breakpoints = []) :
    handleProcess imgW imgH opts = .error "Please select formats and breakpoints" := by
  unfold handleProcess
  rcases h with h | h <;> rw [if_pos] <;> simp [h]

/-- Options with no formats selected. -/
def optsNoFormats : ProcessingOptions :=
  { lossless := false, quality := 85, formats := [], breakpoints := [bp1080],
    includeRetina := true }

/-- C6 witness: the guard fires on a concrete empty-formats configuration. -/
theorem claim6_config_guard_witness :
    handleProcess 100 100 optsNoFormats = .error "Please select formats and breakpoints" :=
  claim6_config_guard 100 100 optsNoFormats (Or.inl rfl)

/-- C7: a source buffer with zero width or zero height makes the resample
operation fail — the derivative is never returned; the failure surfaces as
the wrapped blob-conversion error of the zero-area canvas (the source has no
dedicated error class, so the spec's ResampleError is this rejection). -/
theorem claim7_zero_dimension_fails (imgW imgH tw : Nat) (fmt : ImageFormat)
    (opts : ProcessingOptions) (s : String) (h : imgW = 0 ∨ imgH = 0) :
    createResizedImage imgW imgH tw fmt opts s =
      .error ("Failed to create " ++ s ++ " image: " ++ "Failed to create blob") := by
  unfold createResizedImage
  dsimp only
  have hzero : min tw imgW = 0 ∨
      (if imgW = 0 then 0 else roundHalfUpDiv (min tw imgW * imgH) imgW) = 0 := by
    rcases h with h | h
    · exact Or.inl (by rw [h, Nat.min_zero])
    · right
      by_cases hw : imgW = 0
      · rw [if_pos hw]
      · rw [if_neg hw, h]
        unfold roundHalfUpDiv
        rw [Nat.mul_zero, Nat.mul_zero, Nat.zero_add]
        exact Nat.div_eq_of_lt (by omega)
  rw [show canvasToBlob (min tw imgW)
      (if imgW = 0 then 0 else roundHalfUpDiv (min tw imgW * imgH) imgW) fmt opts =
      .error "Failed to create blob" by unfold canvasToBlob; rw [if_pos hzero]]

/-- C7 witness: a zero-width source fails concretely. -/
theorem claim7_zero_dimension_fails_witness :
    createResizedImage 0 100 1920 fmtWebP optsLossyWebP "1920" =
      .error ("Failed to create " ++ "1920" ++ " image: " ++ "Failed to create blob") :=
  claim7_zero_dimension_fails 0 100 1920 fmtWebP optsLossyWebP "1920" (Or.inl rfl)

/-- A 1×1 sampled buffer (single opaque black pixel). -/
def sample1x1 : ImageData := { width := 1, height := 1, data := [0, 0, 0, 255] }

/-- C8 counterexample: on a 1×1 image the Laplacian interior is empty and the
source computes `0 / 0 = NaN` for the sharpness score — the score is the
undefined value (modelled `none`), not a defined number ≥ 0. -/
theorem claim8_sharpness_nan_counterexample :
    calculateLaplacianVariance sample1x1 = none := by decide

/-- C8 (amended): whenever the sampled width and height are both ≥ 3 (so the
Laplacian interior is nonempty), the sharpness score is a defined number and
is ≥ 0; with an empty interior the score is the NaN of `0 / 0`, as the
counterexample shows. -/
theorem claim8_sharpness_defined_nonneg (d : ImageData) (hW : 3 ≤ d.width)
    (hH : 3 ≤ d.height) :
    ∃ v, calculateLaplacianVariance d = some v ∧ 0 ≤ v := by
  have hlen : (laplacianList d).length ≠ 0 := by
    rw [laplacianList_length]
    have h1 : 0 < d.height - 2 := by omega
    have h2 : 0 < d.width - 2 := by omega
    exact Nat.ne_of_gt (Nat.mul_pos h1 h2)
  unfold calculateLaplacianVariance
  rw [if_neg hlen]
  refine ⟨_, rfl, ?_⟩
  apply div_nonneg
  · apply List.sum_nonneg
    intro x hx
    obtain ⟨v, hv, rfl⟩ := List.mem_map.mp hx
    positivity
  · exact Nat.cast_nonneg _

/-- A flat black 3×3 sampled buffer. -/
def sample3x3 : ImageData :=
  { width := 3, height := 3, data := List.replicate 36 0 }

/-- C8 witness: on a 3×3 sample the score is defined and nonnegative. -/
theorem claim8_sharpness_defined_nonneg_witness :
    ∃ v, calculateLaplacianVariance sample3x3 = some v ∧ 0 ≤ v :=
  claim8_sharpness_defined_nonneg sample3x3 (by decide) (by decide)

/-- C9: for every source size and sampled buffer, the confidence is within
[0, 1] (so also at the 1×1 and all-black extremes) and equals the clamp to
[0, 1] of 0.5 plus the megapixel adjustment on the true source pixel count
plus the contrast adjustment on the strided luminance sample, as the
spec-modelled `confidenceSpec` states it. -/
theorem claim9_confidence_bounds_and_formula (srcW srcH : Nat) (d : ImageData) :
    0 ≤ calculateConfidence srcW srcH d ∧ calculateConfidence srcW srcH d ≤ 1 ∧
      calculateConfidence srcW srcH d = confidenceSpec srcW srcH d := by
  unfold calculateConfidence confidenceSpec
  dsimp only
  refine ⟨le_max_left 0 _, max_le (by norm_num) (min_le_left 1 _), ?_⟩
  split_ifs <;> norm_num

/-- C10: with lossless=true and a non-PNG format (AVIF or WEBP), the
derivative's blob carries media type `image/png` while its name keeps the
requested format's extension — the name's extension does not match the
actual encoding. -/
theorem claim10_extension_encoding_mismatch {imgW imgH tw : Nat}
    {fmt : ImageFormat} {opts : ProcessingOptions} {s : String}
    {d : ProcessedImage} (hl : opts.lossless = true)
    (hf : fmt.extension = "avif" ∨ fmt.extension = "webp")
    (hok : createResizedImage imgW imgH tw fmt opts s = .ok d) :
    d.blob.mime = "image/png" ∧ strEndsWith d.name ("." ++ fmt.extension) = true ∧
      fmt.extension ≠ "png" := by
  obtain ⟨hname, hcb⟩ := createResizedImage_ok_inv hok
  have hb := canvasToBlob_ok_lossless hl hcb
  refine ⟨by rw [hb], ?_, ?_⟩
  · rw [hname]; exact strEndsWith_own_ext s fmt.extension
  · rcases hf with h | h <;> simp [h]

/-- Lossless AVIF-only options for the C10 witness. -/
def optsLosslessAvif : ProcessingOptions :=
  { lossless := true, quality := 85, formats := [fmtAVIF], breakpoints := [bp1080],
    includeRetina := false }

/-- The derivative `createResizedImage 100 100 1920 fmtAVIF optsLosslessAvif`
produces: an `.avif`-named file holding a PNG-encoded blob. -/
def derivLosslessAvif : ProcessedImage :=
  { name := "image-1920.avif",
    blob := { mime := "image/png", losslessEnc := true, qualityArg := none },
    width := 100, height := 100 }

/-- C10 witness: the mismatch on a concrete lossless AVIF derivative. -/
theorem claim10_extension_encoding_mismatch_witness :
    derivLosslessAvif.blob.mime = "image/png" ∧
      strEndsWith derivLosslessAvif.name ("." ++ fmtAVIF.extension) = true ∧
      fmtAVIF.extension ≠ "png" :=
  @claim10_extension_encoding_mismatch 100 100 1920 fmtAVIF optsLosslessAvif "1920"
    derivLosslessAvif rfl (Or.inl rfl) rfl

end ImageOptimiser
